import Mathlib

/-!
Verification of `ptd_client_server/server.py` (PTDaemon client-server power
measurement mediator).

Shallow embedding conventions:
* A log file is modelled by its text content (`String`); Python's line
  iteration (`for line in f`) is `pySplitLines`, which splits after each
  newline and keeps the terminator on every line except possibly the last.
  Text-mode newline translation is not modelled: the content string is the
  text as the Python code sees it.
* Python `str.split(sep)` for a one-character separator is `pySplit`.
* Python `decimal.Decimal` values are modelled exactly as in CPython: a signed
  integer coefficient together with a base-10 exponent (`Dec`).  Comparison is
  exact decimal comparison (`Dec.ble`), which agrees with the rational value
  `Dec.toRat`.  The `Decimal(...)` constructor is modelled on plain finite
  decimal literals (no whitespace, underscores, infinities or NaN forms);
  claims C1 and C2 disclose this as an explicit parse hypothesis.
  `float(...)` is modelled by `pyFloat` faithfully over ASCII input:
  whitespace stripping, PEP-515 underscores, case-insensitive
  `inf`/`infinity`/`nan` with optional sign, and — for the one comparison the
  code performs, `float(v) > 0` — the exact IEEE-754 round-to-zero threshold
  (the correctly rounded double of a positive exact value is positive iff the
  value exceeds `2 ^ (-1075)`).  CPython additionally transliterates
  non-ASCII Unicode decimal digits and spaces before parsing; that is outside
  this model, and claim C6 restricts its quantified replies to ASCII.
* Fallible code returns `Option`/`Except`; an uncaught Python exception inside
  a command handler is the `fault` outcome, process exit is `exited`.
-/

/-- Python `str.split(sep)` helper: accumulates the current field (reversed). -/
def pySplitAux (sep : Char) : List Char → List Char → List String
  | [], acc => [String.mk acc.reverse]
  | c :: cs, acc =>
    if c = sep then String.mk acc.reverse :: pySplitAux sep cs []
    else pySplitAux sep cs (c :: acc)

/-- Python `s.split(sep)` for a single-character separator: always returns at
least one field; `"".split(",") == [""]`. -/
def pySplit (s : String) (sep : Char) : List String := pySplitAux sep s.toList []

/-- Helper for `pySplitLines`. -/
def pySplitLinesAux : List Char → List Char → List String
  | [], acc =>
    match acc with
    | [] => []
    | _ => [String.mk acc.reverse]
  | c :: cs, acc =>
    if c = '\n' then String.mk (acc.reverse ++ ['\n']) :: pySplitLinesAux cs []
    else pySplitLinesAux cs (c :: acc)

/-- Python file-object line iteration: split after each newline, keeping the
terminator; a final unterminated line is kept; empty content yields no lines. -/
def pySplitLines (s : String) : List String := pySplitLinesAux s.toList []

/-- Concatenation of a list of strings, i.e. Python `"".join(result)`. -/
def strJoin : List String → String
  | [] => ""
  | s :: l => s ++ strJoin l

/-- Python `line.rstrip("\r\n")`: drop all trailing CR and LF characters. -/
def rstripCRLF (s : String) : String :=
  String.mk ((s.toList.reverse.dropWhile (fun c => c = '\r' ∨ c = '\n')).reverse)

/-- A Python `decimal.Decimal` value, exactly as CPython represents finite
decimals: value = `num * 10 ^ exp`.  `Decimal("9.10")` is `⟨910, -2⟩`. -/
structure Dec where
  num : ℤ
  exp : ℤ
deriving DecidableEq, Repr

/-- Exact decimal comparison `x ≤ y`, by cross-scaling the coefficients to a
common exponent.  This is how `Decimal` comparison behaves (no floating
point). -/
def Dec.ble (x y : Dec) : Bool :=
  if x.exp ≤ y.exp then x.num ≤ y.num * 10 ^ (y.exp - x.exp).toNat
  else x.num * 10 ^ (x.exp - y.exp).toNat ≤ y.num

/-- The rational value of a decimal. -/
def Dec.toRat (x : Dec) : ℚ := (x.num : ℚ) * 10 ^ x.exp

/-- Python `max(a, b)`: returns `a` when `a >= b`, else `b`. -/
def Dec.pymax (a b : Dec) : Dec := if Dec.ble b a then a else b

/-- The `Decimal("-1")` sentinel of `max_volts_amps` (server.py:51-52). -/
def decNegOne : Dec := ⟨-1, 0⟩

/-- Model of `Decimal("0")`, used to model the comparison `maxVolts <= 0`. -/
def decZero : Dec := ⟨0, 0⟩

/-- All characters are ASCII digits. -/
def allDigits (cs : List Char) : Bool := cs.all (·.isDigit)

/-- Numeric value of a digit string (callers check `allDigits` separately). -/
def digitsVal (cs : List Char) : ℕ := cs.foldl (fun n c => 10 * n + (c.toNat - 48)) 0

/-- Strip an optional leading sign; `true` means negative. -/
def splitSign : List Char → Bool × List Char
  | '+' :: cs => (false, cs)
  | '-' :: cs => (true, cs)
  | cs => (false, cs)

/-- Split a character list at the first character satisfying `p`; the second
component is `none` when no such character occurs. -/
def breakAt (p : Char → Bool) : List Char → List Char × Option (List Char)
  | [] => ([], none)
  | c :: cs =>
    if p c then ([], some cs)
    else
      let r := breakAt p cs
      (c :: r.1, r.2)

/-- Parser for plain finite decimal numeric literals: optional sign,
integer/fraction digits (at least one digit), optional `e`/`E` exponent with
optional sign.  It is the model of `decimal.Decimal(s)` on that fragment and
the finite-literal core of `pyFloat`; `none` models the
`InvalidOperation`/`ValueError` raised on malformed input. -/
def parseNumCore (cs : List Char) : Option Dec :=
  let sgn := splitSign cs
  let me := breakAt (fun c => c = 'e' ∨ c = 'E') sgn.2
  let ifp := breakAt (fun c => c = '.') me.1
  let fp := ifp.2.getD []
  if ifp.1.isEmpty ∧ fp.isEmpty then none
  else if ¬ (allDigits ifp.1 ∧ allDigits fp) then none
  else
    let expVal : Option ℤ :=
      match me.2 with
      | none => some 0
      | some ecs =>
        let esgn := splitSign ecs
        if esgn.2.isEmpty then none
        else if ¬ allDigits esgn.2 then none
        else some (if esgn.1 then -(digitsVal esgn.2 : ℤ) else (digitsVal esgn.2 : ℤ))
    match expVal with
    | none => none
    | some e =>
      let coeff : ℤ := (digitsVal (ifp.1 ++ fp) : ℤ)
      some ⟨if sgn.1 then -coeff else coeff, e - (fp.length : ℤ)⟩

/-- Model of `decimal.Decimal(s)` (used by `max_volts_amps`, server.py:57-58). -/
def parseDecimal (s : String) : Option Dec := parseNumCore s.toList

/-- ASCII whitespace stripped by `float()` (`Py_ISSPACE`). -/
def isPySpace (c : Char) : Bool :=
  c = ' ' ∨ c = '\t' ∨ c = '\n' ∨ c = '\r' ∨ c = '\x0b' ∨ c = '\x0c'

/-- Strip leading and trailing ASCII whitespace. -/
def stripPySpace (cs : List Char) : List Char :=
  ((cs.dropWhile isPySpace).reverse.dropWhile isPySpace).reverse

/-- Helper for `underscoresOK`: the Bool carries whether the previous
character was an ASCII digit. -/
def underscoresOKAux : Bool → List Char → Bool
  | _, [] => true
  | prevDigit, c :: cs =>
    if c = '_' then
      prevDigit
        && (match cs with | d :: _ => d.isDigit | [] => false)
        && underscoresOKAux false cs
    else underscoresOKAux c.isDigit cs

/-- PEP-515 underscore validity as CPython's
`_Py_string_to_number_with_underscores` checks it for `float()`: every `_`
must have an ASCII digit immediately before and after it. -/
def underscoresOK (cs : List Char) : Bool := underscoresOKAux false cs

/-- Remove the (already validated) underscores before parsing. -/
def stripUnderscores (cs : List Char) : List Char := cs.filter (fun c => c ≠ '_')

/-- All characters of the string are ASCII. -/
def isAsciiStr (s : String) : Bool := s.toList.all (fun c => c.toNat < 128)

/-- The integer `2 ^ 1075` — the reciprocal of the round-to-zero threshold of
IEEE-754 double precision — spelled out as a numeral so that kernel
evaluation of `pyFloatGtZero` needs no deep unary exponentiation
(`twoPow1075_eq` checks the numeral). -/
def twoPow1075 : ℕ := 404804506614621236704990693437834614099113299528284236713802716054860679135990693783920767402874248990374155728633623822779617474771586953734026799881477019843034848553132722728933815484186432682479535356945490137124014966849385397236206711298319112681620113024717539104666829230461005064372655017292012526615415482186989568

/-- Result of a successful `float(s)`: a finite decimal value, a signed
infinity, or a NaN. -/
inductive PyFloatVal where
  | finite (d : Dec)
  | inf (neg : Bool)
  | nan
deriving DecidableEq, Repr

/-- Model of `float(s)` (used by `Ptd._get_initial_range`, server.py:268),
faithful over ASCII input: leading/trailing ASCII whitespace is stripped,
PEP-515 underscores (each between two digits) are validated and removed,
the case-insensitive forms `inf`/`infinity`/`nan` with optional sign are the
special values, and otherwise the finite decimal literal grammar of
`parseNumCore` applies.  `none` models `ValueError`.  (CPython additionally
transliterates non-ASCII Unicode decimal digits and spaces before parsing;
that is outside this model, and claim C6 quantifies over ASCII replies
only.) -/
def pyFloat (s : String) : Option PyFloatVal :=
  let cs := stripPySpace s.toList
  if ¬ underscoresOK cs then none
  else
    let cs2 := stripUnderscores cs
    let sgn := splitSign cs2
    let low := sgn.2.map Char.toLower
    if low = ['i', 'n', 'f'] ∨ low = ['i', 'n', 'f', 'i', 'n', 'i', 't', 'y'] then
      some (.inf sgn.1)
    else if low = ['n', 'a', 'n'] then some .nan
    else
      match parseNumCore cs2 with
      | some d => some (.finite d)
      | none => none

/-- The one use the code makes of the parsed float: the comparison
`float(v) > 0` (server.py:266-269).  For a finite exact value `x` the
correctly rounded IEEE-754 double is positive iff `x > 2 ^ (-1075)`: the
smallest positive double is the subnormal `2 ^ (-1074)`, and
round-to-nearest, ties-to-even sends exactly `2 ^ (-1075)` and everything
below it to `0.0`.  `inf > 0` holds; `-inf > 0` and `nan > 0` do not. -/
def pyFloatGtZero : PyFloatVal → Bool
  | .finite d =>
    if d.num ≤ 0 then false
    else if 0 ≤ d.exp then true
    else decide ((10 : ℕ) ^ (-d.exp).toNat < d.num.toNat * twoPow1075)
  | .inf neg => !neg
  | .nan => false

/-- Python `f"{x}"` on an `Optional[str]`: `None` prints as `"None"`. -/
def pyStr : Option String → String
  | none => "None"
  | some s => s

/-!
## LogAnalyzer (server.py:37-71)

`RE_PTD_LOG` (server.py:37-47) is, verbosely,
`^Time,[^,]*,Watts,[^,]*,Volts,([^,]*),Amps,([^,]*),.*,Mark,([^,]*)$`.
Splitting the line on commas, `re.match` succeeds exactly when there are at
least 11 fields, fields 0/2/4/6 are the literals `Time`/`Watts`/`Volts`/`Amps`,
the second-to-last field is the literal `Mark` (the greedy `.*` backtracks to
the last `,Mark,` occurrence followed by a comma-free tail, and the captured
mark, matched by `[^,]*` up to `$`, contains no comma, so `Mark` must be the
penultimate field), and the interior region matched by `.*` (fields 8 through
n-3) contains no newline (`.` does not match `\n`; the `[^,]*` fields may).
Groups `v`, `a`, `mark` are fields 5, 7 and n-1.
-/

/-- Model of `RE_PTD_LOG.match(line)`: `some (v, a, mark)` on success. -/
def RE_PTD_LOG_match (line : String) : Option (String × String × String) :=
  let fs := pySplit line ','
  let n := fs.length
  if 11 ≤ n
      ∧ fs.getD 0 "" = "Time"
      ∧ fs.getD 2 "" = "Watts"
      ∧ fs.getD 4 "" = "Volts"
      ∧ fs.getD 6 "" = "Amps"
      ∧ fs.getD (n - 2) "" = "Mark"
      ∧ ((fs.drop 8).take (n - 10)).all (fun f => ¬ f.toList.contains '\n') then
    some (fs.getD 5 "", fs.getD 7 "", fs.getD (n - 1) "")
  else none

/-- The `(v, a)` field pairs of exactly those lines that match `RE_PTD_LOG`
(after `rstrip("\r\n")`) with the requested mark (exact, case-sensitive
comparison `m["mark"] == mark`).  This is the specification-side description
of which lines `max_volts_amps` aggregates. -/
def matchingPairs (lines : List String) (mark : String) : List (String × String) :=
  lines.filterMap (fun l =>
    match RE_PTD_LOG_match (rstripCRLF l) with
    | some (v, a, mk) => if mk = mark then some (v, a) else none
    | none => none)

/-- Errors `max_volts_amps` can raise: the explicit
`RuntimeError("Could not find values …")` (NotFound), or
`decimal.InvalidOperation` from `Decimal(...)` on a malformed field. -/
inductive MVAError where
  | notFound
  | invalidOperation
deriving DecidableEq, Repr

instance {ε α : Type} [DecidableEq ε] [DecidableEq α] : DecidableEq (Except ε α) := fun x y =>
  match x, y with
  | .ok a, .ok b =>
    match decEq a b with
    | isTrue h => isTrue (h ▸ rfl)
    | isFalse h => isFalse (fun hh => h (Except.ok.inj hh))
  | .error e, .error f =>
    match decEq e f with
    | isTrue h => isTrue (h ▸ rfl)
    | isFalse h => isFalse (fun hh => h (Except.error.inj hh))
  | .ok _, .error _ => isFalse (fun hh => Except.noConfusion hh)
  | .error _, .ok _ => isFalse (fun hh => Except.noConfusion hh)

/-- The `for line in f` loop of `max_volts_amps` (server.py:54-58): running
maxima over matching lines; a malformed decimal raises. -/
def mvaLoop (mark : String) : List String → Dec → Dec → Except MVAError (Dec × Dec)
  | [], maxVolts, maxAmps => .ok (maxVolts, maxAmps)
  | l :: ls, maxVolts, maxAmps =>
    match RE_PTD_LOG_match (rstripCRLF l) with
    | some (v, a, mk) =>
      if mk = mark then
        match parseDecimal v, parseDecimal a with
        | some qv, some qa => mvaLoop mark ls (Dec.pymax maxVolts qv) (Dec.pymax maxAmps qa)
        | _, _ => .error .invalidOperation
      else mvaLoop mark ls maxVolts maxAmps
    | none => mvaLoop mark ls maxVolts maxAmps

/-- Model of `max_volts_amps(log_fname, mark)` (server.py:50-61), with the file given by
its content.  Starts both running maxima at `Decimal("-1")`; raises NotFound
when either final maximum is `<= 0`. -/
def max_volts_amps (content : String) (mark : String) : Except MVAError (Dec × Dec) :=
  match mvaLoop mark (pySplitLines content) decNegOne decNegOne with
  | .error e => .error e
  | .ok (maxVolts, maxAmps) =>
    if Dec.ble maxVolts decZero ∨ Dec.ble maxAmps decZero then .error .notFound
    else .ok (maxVolts, maxAmps)

/-- The `for line in f` loop of `read_log` (server.py:67-70): collect matching
lines verbatim (the original `line`, terminator included; only the copy used
for matching is `rstrip`ped). -/
def readLogLoop (mark : String) : List String → List String
  | [] => []
  | l :: ls =>
    match RE_PTD_LOG_match (rstripCRLF l) with
    | some (_, _, mk) =>
      if mk = mark then l :: readLogLoop mark ls else readLogLoop mark ls
    | none => readLogLoop mark ls

/-- Model of `read_log(log_fname, mark)` (server.py:64-71). -/
def read_log (content : String) (mark : String) : String :=
  strJoin (readLogLoop mark (pySplitLines content))

/-- Boolean form of "this line matches the grammar with this mark". -/
def lineMatches (mark : String) (l : String) : Bool :=
  match RE_PTD_LOG_match (rstripCRLF l) with
  | some (_, _, mk) => mk = mark
  | none => false

/-- The parsed voltages of exactly the matching lines, in file order. -/
def markedVolts (content mark : String) : List Dec :=
  (matchingPairs (pySplitLines content) mark).filterMap (fun p => parseDecimal p.1)

/-- The parsed currents of exactly the matching lines, in file order. -/
def markedAmps (content mark : String) : List Dec :=
  (matchingPairs (pySplitLines content) mark).filterMap (fun p => parseDecimal p.2)

/-!
## DaemonSupervisor (`class Ptd`, server.py:157-280)

The external PTDaemon is abstracted as a `Daemon`: whether a TCP connection
to it succeeds within the 100 retries, and its reply to each protocol
command (`Proto.recv` returning end-of-stream is `none`).  `Ptd.start` and
`Ptd.stop` additionally return the list of protocol commands sent, and
`Ptd.stop` whether the child process was terminated.  The interrupt check
`lib.sig.stopped` inside the retry loop (concurrency) is not modelled.
-/

/-- The external daemon's observable behaviour. -/
structure Daemon where
  connects : Bool
  reply : String → Option String

/-- The mutable state of a `Ptd` object: which handles are held
(`_process`/`_socket`/`_proto`, modelled by presence booleans) and the
captured initial range strings. -/
structure Ptd where
  process : Bool
  socket : Bool
  proto : Bool
  init_Amps : Option String
  init_Volts : Option String
deriving DecidableEq, Repr

/-- Model of `Ptd.__init__` (server.py:158-165): no handles, no captured range. -/
def Ptd.initial : Ptd := ⟨false, false, false, none, none⟩

/-- Model of `Ptd.stop` (server.py:217-239).  Returns (new state, protocol commands
sent, whether the child process was terminated).  If a control connection
exists it sends `Stop`, then `SR,V,<initVolts>`, then `SR,A,<initAmps>`
(f-string interpolation of a possibly-`None` optional), in that order; then
drops proto, socket and process handles.  The captured `init_*` values are
not cleared. -/
def Ptd.stop (p : Ptd) : Ptd × List String × Bool :=
  ({ p with process := false, socket := false, proto := false },
   (if p.proto then ["Stop", "SR,V," ++ pyStr p.init_Volts, "SR,A," ++ pyStr p.init_Amps]
    else []),
   p.process)

/-- Model of `get_range_from_ranges_list` (server.py:264-274).  `none` models the
uncaught `IndexError` from an out-of-range list access (the `try` block
catches only `ValueError`); `some s` is the returned setting. -/
def getRangeFromRangesList (rl : List String) (paramNum : ℕ) : Option String :=
  match rl.get? paramNum with
  | none => none
  | some flag =>
    if flag = "0" then
      match rl.get? (paramNum + 1) with
      | none => none
      | some v =>
        match pyFloat v with
        | none => some "Auto"
        | some fv => if pyFloatGtZero fv then some v else some "Auto"
    else some "Auto"

/-- The range-capture part of `Ptd._get_initial_range` (server.py:262-277)
applied to a (non-empty) `RR` reply: `some (amps, volts)` on completion,
`none` when an uncaught `IndexError` escapes. -/
def getInitialRange (response : String) : Option (String × String) :=
  match getRangeFromRangesList (pySplit response ',') 1 with
  | none => none
  | some a =>
    match getRangeFromRangesList (pySplit response ',') 3 with
    | none => none
    | some v => some (a, v)

/-- Outcome of `Ptd.start`: the whole server process exits (`exit(1)` on an
empty/missing RR reply), an uncaught exception propagates to the caller
(`fault`), or the method returns a boolean. -/
inductive StartOutcome where
  | exited
  | fault
  | ret (b : Bool)
deriving DecidableEq, Repr

/-- Model of `Ptd.start` (server.py:167-215) together with `_get_initial_range`
(server.py:253-280).  Returns (outcome, new state, protocol commands sent).
Branches, in source order: already running → `False` with no side effect;
connection retries exhausted → `self.stop()` then `False`; handshake reply
not exactly `"Hello, PTDaemon here!"` → `False` (handles kept, no cleanup);
`RR` reply missing or empty → `exit(1)`; otherwise capture the initial range
for Amps (offset 1) then Volts (offset 3), where an out-of-range access
raises (partial capture persists).  `Identify`'s reply is only logged. -/
def Ptd.start (d : Daemon) (p : Ptd) : StartOutcome × Ptd × List String :=
  if p.process then (.ret false, p, [])
  else
    if ¬ d.connects then (.ret false, (Ptd.stop { p with process := true }).1, [])
    else
      let p2 : Ptd := { p with process := true, socket := true, proto := true }
      if d.reply "Hello" ≠ some "Hello, PTDaemon here!" then (.ret false, p2, ["Hello"])
      else
        match d.reply "RR" with
        | none => (.exited, p2, ["Hello", "Identify", "RR"])
        | some r =>
          if r = "" then (.exited, p2, ["Hello", "Identify", "RR"])
          else
            match getRangeFromRangesList (pySplit r ',') 1 with
            | none => (.fault, p2, ["Hello", "Identify", "RR"])
            | some a =>
              match getRangeFromRangesList (pySplit r ',') 3 with
              | none => (.fault, { p2 with init_Amps := some a }, ["Hello", "Identify", "RR"])
              | some v =>
                (.ret true, { p2 with init_Amps := some a, init_Volts := some v },
                 ["Hello", "Identify", "RR"])

/-!
## SessionController (`class Server`, server.py:283-402)

Session state is the mutable attributes of the `Server` object.  Each
received command is paired with the environment at that instant: the daemon
log file's current content (`none` = file absent; the daemon appends to it
between commands), the daemon behaviour, the wall clock, the external
`lib.check_label` predicate, and whether the `push-log` bulk transfer or
archive extraction raises.  Commands the `Ptd` layer sends on behalf of a
handler (`SR,...`, `Go,...`, `Stop`) have no effect on session state and
their replies are discarded by the handlers, so they are not tracked here.
`max_volts_amps` and `read_log` both reopen the log file; within one `stop`
command the content is taken to be stable.  The ranging table stores the
`Decimal` maxima; dict insertion is modelled by prepend-with-first-match
lookup, observationally equal to Python dict update. -/

structure Server where
  ptd : Ptd
  mode : Option String
  mark : Option String
  ranging_table : List (String × Dec × Dec)
  last_log : Option String
deriving DecidableEq, Repr

/-- Model of `Server.__init__` (server.py:284-289): note `_last_log` is *not*
initialised there — `none` models the absent attribute. -/
def Server.initial : Server := ⟨Ptd.initial, none, none, [], none⟩

/-- Python dict lookup on the ranging table (`self._ranging_table[mark]`). -/
def dictLookup (k : String) : List (String × Dec × Dec) → Option (Dec × Dec)
  | [] => none
  | kv :: t => if kv.1 = k then some kv.2 else dictLookup k t

/-- One received command together with the environment at that step. -/
structure Input where
  cmd : String
  file : Option String
  daemon : Daemon
  now : String
  labelOk : String → Bool
  pushFault : Bool

/-- Outcome of `Server._handle_cmd`: a reply with the successor state, an
uncaught exception (state as mutated so far), or process exit. -/
inductive CmdOutcome where
  | reply (r : String) (st : Server)
  | fault (st : Server)
  | exited

/-- The base64 alphabet (RFC 4648, as used by `base64.b64encode`). -/
def base64Chars : List Char :=
  "ABCDEFGHIJKLMNOPQRSTUVWXYZabcdefghijklmnopqrstuvwxyz0123456789+/".toList

/-- Digit of the base64 alphabet. -/
def b64char (n : ℕ) : Char := base64Chars.getD n 'A'

/-- Standard base64 of a byte sequence, with padding. -/
def base64EncodeBytes : List ℕ → List Char
  | b1 :: b2 :: b3 :: rest =>
    b64char ((b1 % 256) / 4)
      :: b64char ((b1 % 256) % 4 * 16 + (b2 % 256) / 16)
      :: b64char ((b2 % 256) % 16 * 4 + (b3 % 256) / 64)
      :: b64char ((b3 % 256) % 64)
      :: base64EncodeBytes rest
  | [b1, b2] =>
    [b64char ((b1 % 256) / 4), b64char ((b1 % 256) % 4 * 16 + (b2 % 256) / 16),
     b64char ((b2 % 256) % 16 * 4), '=']
  | [b1] =>
    [b64char ((b1 % 256) / 4), b64char ((b1 % 256) % 4 * 16), '=', '=']
  | [] => []

/-- Model of `base64.b64encode(s.encode()).decode()`: base64 of the UTF-8 bytes. -/
def base64Encode (s : String) : String :=
  String.mk (base64EncodeBytes (s.toUTF8.toList.map UInt8.toNat))

/-- The `init` branch (server.py:345-349).  `lib.ntp_sync` is an external
best-effort procedure with no session effect.  Reply `OK` iff
`self._ptd.start()` returned `True`; the `Ptd` mutations persist even when
an exception escapes `start()`. -/
def Server.handle_init (st : Server) (inp : Input) : CmdOutcome :=
  match Ptd.start inp.daemon st.ptd with
  | (.exited, _, _) => .exited
  | (.fault, p, _) => .fault { st with ptd := p }
  | (.ret b, p, _) => .reply (if b then "OK" else "Error") { st with ptd := p }

/-- The `stop` branch (server.py:365-378).  `Error` when no active marker;
otherwise `self._ptd.cmd("Stop")` (no session effect), then in ranging mode
`max_volts_amps` over the log (an absent file or a raised error leaves all
session fields unchanged), recording the maxima in the ranging table; then
`read_log` for `f"{self._mode}-{self._mark}"` into `_last_log`; then reset
mode and marker. -/
def Server.handle_stop (st : Server) (inp : Input) : CmdOutcome :=
  match st.mark with
  | none => .reply "Error" st
  | some mrk =>
    match inp.file with
    | none => .fault st
    | some content =>
      if st.mode = some "ranging" then
        match max_volts_amps content ("ranging-" ++ mrk) with
        | .error _ => .fault st
        | .ok item =>
          .reply "OK" { st with
            ranging_table := (mrk, item) :: st.ranging_table,
            last_log := some (read_log content (pyStr st.mode ++ "-" ++ mrk)),
            mode := none, mark := none }
      else
        .reply "OK" { st with
          last_log := some (read_log content (pyStr st.mode ++ "-" ++ mrk)),
          mode := none, mark := none }

/-- Model of `Server._handle_cmd` (server.py:337-402): split the command on commas and
dispatch through the if-chain in source order. -/
def Server.handle_cmd (st : Server) (inp : Input) : CmdOutcome :=
  if (pySplit inp.cmd ',').length = 0 then .reply "..." st
  else if (pySplit inp.cmd ',').headD "" = "hello" then .reply "Hello from server!" st
  else if (pySplit inp.cmd ',').headD "" = "time" then .reply inp.now st
  else if (pySplit inp.cmd ',').headD "" = "init" then Server.handle_init st inp
  else if (pySplit inp.cmd ',').headD "" = "start-ranging" ∧ (pySplit inp.cmd ',').length = 2 then
    .reply "OK" { st with mode := some "ranging", mark := some ((pySplit inp.cmd ',').getD 1 "") }
  else if (pySplit inp.cmd ',').headD "" = "start-testing" ∧ (pySplit inp.cmd ',').length = 2 then
    match dictLookup ((pySplit inp.cmd ',').getD 1 "") st.ranging_table with
    | none => .fault st
    | some _item =>
      .reply "OK" { st with mode := some "testing", mark := some ((pySplit inp.cmd ',').getD 1 "") }
  else if (pySplit inp.cmd ',').headD "" = "stop" then Server.handle_stop st inp
  else if (pySplit inp.cmd ',').headD "" = "get-last-log" then
    match st.last_log with
    | none => .fault st
    | some t => .reply ("base64 " ++ base64Encode t) st
  else if (pySplit inp.cmd ',').headD "" = "get-log" then
    match inp.file with
    | none => .fault st
    | some c => .reply ("base64 " ++ base64Encode c) st
  else if (pySplit inp.cmd ',').headD "" = "push-log" ∧ (pySplit inp.cmd ',').length = 2 then
    if ¬ inp.labelOk ((pySplit inp.cmd ',').getD 1 "") then .reply "Error: invalid label" st
    else if inp.pushFault then .fault st
    else .reply "OK" st
  else .reply "Error: unknown command" st

/-- One iteration of the `handle_connection` receive-dispatch-reply loop
(server.py:302-326): an uncaught exception from `_handle_cmd` is caught and
converted to the generic `"Error: exception"` reply; process exit ends
everything (`none`). -/
def stepSafe (st : Server) (inp : Input) : Option (String × Server) :=
  match Server.handle_cmd st inp with
  | .reply r st2 => some (r, st2)
  | .fault st2 => some ("Error: exception", st2)
  | .exited => none

/-- Run a whole sequence of commands, collecting the replies. -/
def runSession (st : Server) : List Input → Option (List String × Server)
  | [] => some ([], st)
  | i :: is =>
    match stepSafe st i with
    | none => none
    | some (r, st2) =>
      match runSession st2 is with
      | none => none
      | some (rs, stf) => some (r :: rs, stf)

/-- The prologue of `Server.handle_connection` (server.py:294-300): reset the
ranging table, mode and marker, and delete the daemon log file if present.
Nothing else — in particular `_last_log` and the `Ptd` state are untouched. -/
def connectionStart (st : Server) (_file : Option String) : Server × Option String :=
  ({ st with ranging_table := [], mode := none, mark := none }, none)

/-- This step's command is a `stop` command (`cmd.split(",")[0] == "stop"`). -/
def isStopCmd (inp : Input) : Bool := (pySplit inp.cmd ',').headD "" = "stop"

/-- This step's command is exactly `start-ranging,<mk>`. -/
def isStartRanging (inp : Input) (mk : String) : Prop :=
  pySplit inp.cmd ',' = ["start-ranging", mk]

/-- Some element of the trace is a `stop` command. -/
def hasStop (cs : List Input) : Prop := ∃ b ∈ cs, isStopCmd b = true

/-- The trace contains a `start-ranging,<mk>` command followed (strictly
later) by a `stop` command. -/
def producedBy (cs : List Input) (mk : String) : Prop :=
  ∃ l1 a l2, cs = l1 ++ a :: l2 ∧ isStartRanging a mk ∧ hasStop l2

/-- What a single dispatched command can do to the session-machine fields:
the ranging table grows only at a `stop` in ranging mode with the active
marker; `mode = ranging` arises only from `start-ranging` (or persists with
its marker); `_last_log` changes only at a `stop` that replies `OK`. -/
def StepEffects (st st' : Server) (inp : Input) (r : String) : Prop :=
  (st'.ranging_table = st.ranging_table
    ∨ (isStopCmd inp = true ∧ st.mode = some "ranging"
       ∧ ∃ mrk item, st.mark = some mrk
         ∧ st'.ranging_table = (mrk, item) :: st.ranging_table))
  ∧ (st'.mode = some "ranging" →
      (st.mode = some "ranging" ∧ st'.mark = st.mark)
      ∨ ∃ mrk, pySplit inp.cmd ',' = ["start-ranging", mrk] ∧ st'.mark = some mrk)
  ∧ (st'.last_log = st.last_log ∨ (isStopCmd inp = true ∧ r = "OK"))

/-- A daemon that connects and answers the handshake and range query
correctly (`RR` ↦ `0,0,5.5,0,120.0`, the scenario of spec §8). -/
def demoDaemonGood : Daemon :=
  ⟨true, fun c =>
    if c = "Hello" then some "Hello, PTDaemon here!"
    else if c = "RR" then some "0,0,5.5,0,120.0"
    else some ""⟩

/-- A daemon whose `RR` reply is the non-empty but too-short `"0"`. -/
def demoDaemonShortRR : Daemon :=
  ⟨true, fun c =>
    if c = "Hello" then some "Hello, PTDaemon here!"
    else if c = "RR" then some "0"
    else some ""⟩

/-- A daemon that never accepts the control connection. -/
def demoDaemonNoConnect : Daemon := ⟨false, fun _ => none⟩

/-- A daemon whose handshake reply is wrong. -/
def demoDaemonBadHello : Daemon := ⟨true, fun _ => some "What?"⟩

/-- A daemon that answers the handshake but replies `""` to `RR`. -/
def demoDaemonEmptyRR : Daemon :=
  ⟨true, fun c => if c = "Hello" then some "Hello, PTDaemon here!" else some ""⟩

/-- The `Ptd` state after a successful `start()` against `demoDaemonGood`. -/
def ptdStarted : Ptd := ⟨true, true, true, some "5.5", some "120.0"⟩

/-- A session whose daemon supervisor has already started. -/
def serverStarted : Server := ⟨ptdStarted, none, none, [], none⟩

/-- A one-line daemon log tagged for ranging marker `r`. -/
def demoLog : String := "Time,t,Watts,w,Volts,2,Amps,3,x,Mark,ranging-r\n"

/-- Concrete inputs used by the witnesses. -/
def inpInit : Input := ⟨"init", none, demoDaemonGood, "0", fun _ => true, false⟩

def inpInitShort : Input := ⟨"init", none, demoDaemonShortRR, "0", fun _ => true, false⟩

def inpInitNoConnect : Input := ⟨"init", none, demoDaemonNoConnect, "0", fun _ => true, false⟩

def inpInitBadHello : Input := ⟨"init", none, demoDaemonBadHello, "0", fun _ => true, false⟩

def inpInitEmptyRR : Input := ⟨"init", none, demoDaemonEmptyRR, "0", fun _ => true, false⟩

def inpHello : Input := ⟨"hello", none, demoDaemonGood, "0", fun _ => true, false⟩

def inpStartRanging : Input :=
  ⟨"start-ranging,r", some demoLog, demoDaemonGood, "0", fun _ => true, false⟩

def inpStop : Input := ⟨"stop", some demoLog, demoDaemonGood, "0", fun _ => true, false⟩

def inpStartTestingMissing : Input :=
  ⟨"start-testing,zzz", some demoLog, demoDaemonGood, "0", fun _ => true, false⟩

def inpGetLastLog : Input :=
  ⟨"get-last-log", some demoLog, demoDaemonGood, "0", fun _ => true, false⟩

/-- Specification-side description of one channel's captured setting (claim
C6): the literal value when the autorange flag equals `"0"` and the value
parses as a positive number, `"Auto"` in every other case, including a parse
failure. -/
def claimedSetting (flag value : String) : String :=
  if flag = "0" then
    match pyFloat value with
    | some fv => if pyFloatGtZero fv then value else "Auto"
    | none => "Auto"
  else "Auto"

theorem twoPow1075_eq : twoPow1075 = 2 ^ 1075 := by
  norm_num [twoPow1075]

theorem Dec.shift (x : Dec) (m : ℤ) (hm : m ≤ x.exp) :
    x.toRat = ((x.num * 10 ^ (x.exp - m).toNat : ℤ) : ℚ) * 10 ^ m := by
  unfold Dec.toRat
  push_cast
  rw [mul_assoc, ← zpow_natCast (10:ℚ) (x.exp - m).toNat,
      Int.toNat_of_nonneg (by omega : (0:ℤ) ≤ x.exp - m),
      ← zpow_add₀ (by norm_num : (10:ℚ) ≠ 0), sub_add_cancel]

/-- Decimal comparison agrees with the rational ordering. -/
theorem Dec.ble_iff (x y : Dec) : Dec.ble x y = true ↔ x.toRat ≤ y.toRat := by
  rw [Dec.shift x (min x.exp y.exp) (min_le_left _ _),
      Dec.shift y (min x.exp y.exp) (min_le_right _ _),
      mul_le_mul_right (zpow_pos (by norm_num) _), Int.cast_le]
  unfold Dec.ble
  split
  next h =>
    rw [min_eq_left h]
    simp
  next h =>
    rw [min_eq_right (by omega)]
    simp

theorem Dec.pymax_toRat (a b : Dec) :
    (Dec.pymax a b).toRat = max a.toRat b.toRat := by
  unfold Dec.pymax
  split
  next h => rw [max_eq_left ((Dec.ble_iff b a).mp h)]
  next h =>
    rw [max_eq_right]
    have := (Dec.ble_iff b a).not.mp (by simpa using h)
    linarith [not_le.mp this]

theorem decZero_toRat : decZero.toRat = 0 := by
  simp [decZero, Dec.toRat]

theorem decNegOne_toRat : decNegOne.toRat = -1 := by
  simp [decNegOne, Dec.toRat]

theorem foldl_pymax_le (l : List Dec) (c : Dec) :
    c.toRat ≤ (l.foldl Dec.pymax c).toRat := by
  induction l generalizing c with
  | nil => simp
  | cons x xs ih =>
    simp only [List.foldl_cons]
    calc c.toRat ≤ (Dec.pymax c x).toRat := by
          rw [Dec.pymax_toRat]; exact le_max_left _ _
      _ ≤ _ := ih _

theorem foldl_pymax_mem (l : List Dec) (c : Dec) :
    l.foldl Dec.pymax c = c ∨ l.foldl Dec.pymax c ∈ l := by
  induction l generalizing c with
  | nil => left; rfl
  | cons x xs ih =>
    simp only [List.foldl_cons]
    rcases ih (Dec.pymax c x) with h | h
    · rw [h]
      unfold Dec.pymax
      split
      · left; rfl
      · right; exact List.mem_cons_self _ _
    · right; exact List.mem_cons_of_mem _ h

theorem foldl_pymax_ge (l : List Dec) (c : Dec) :
    ∀ x ∈ l, x.toRat ≤ (l.foldl Dec.pymax c).toRat := by
  induction l generalizing c with
  | nil => simp
  | cons y ys ih =>
    intro x hx
    simp only [List.foldl_cons]
    rcases List.mem_cons.mp hx with rfl | h
    · calc x.toRat ≤ (Dec.pymax c x).toRat := by
            rw [Dec.pymax_toRat]; exact le_max_right _ _
        _ ≤ _ := foldl_pymax_le _ _
    · exact ih _ x h

theorem mvaLoop_eq (mark : String) (lines : List String) :
    ∀ mv ma,
    (∀ p ∈ matchingPairs lines mark, (parseDecimal p.1).isSome ∧ (parseDecimal p.2).isSome) →
    mvaLoop mark lines mv ma =
      .ok (((matchingPairs lines mark).filterMap (fun p => parseDecimal p.1)).foldl Dec.pymax mv,
           ((matchingPairs lines mark).filterMap (fun p => parseDecimal p.2)).foldl Dec.pymax ma) := by
  induction lines with
  | nil => intro mv ma _; simp [mvaLoop, matchingPairs]
  | cons l ls ih =>
    intro mv ma hp
    unfold mvaLoop
    cases hre : RE_PTD_LOG_match (rstripCRLF l) with
    | none =>
      have hmp : matchingPairs (l :: ls) mark = matchingPairs ls mark := by
        simp [matchingPairs, List.filterMap_cons, hre]
      rw [hmp] at hp
      rw [ih mv ma hp, hmp]
    | some t =>
      obtain ⟨v, a, mk⟩ := t
      by_cases hmk : mk = mark
      · subst hmk
        have hmp : matchingPairs (l :: ls) mk = (v, a) :: matchingPairs ls mk := by
          simp [matchingPairs, List.filterMap_cons, hre]
        obtain ⟨hv, ha⟩ := hp (v, a) (by rw [hmp]; exact List.mem_cons_self _ _)
        obtain ⟨qv, hqv⟩ := Option.isSome_iff_exists.mp hv
        obtain ⟨qa, hqa⟩ := Option.isSome_iff_exists.mp ha
        have htail : ∀ p ∈ matchingPairs ls mk,
            (parseDecimal p.1).isSome ∧ (parseDecimal p.2).isSome :=
          fun p hmem => hp p (by rw [hmp]; exact List.mem_cons_of_mem _ hmem)
        simp only [hqv, hqa, if_pos rfl]
        rw [ih _ _ htail, hmp]
        simp [List.filterMap_cons, hqv, hqa]
      · have hmp : matchingPairs (l :: ls) mark = matchingPairs ls mark := by
          simp [matchingPairs, List.filterMap_cons, hre, hmk]
        rw [hmp] at hp
        simp only [if_neg hmk]
        rw [ih mv ma hp, hmp]

/-- Claim C1: For every log file and marker, `parse_max` (`max_volts_amps`)
returns the pair of the maximum voltage and the maximum current taken over
exactly the lines matching the fixed record grammar with the requested mark
(exact, case-sensitive comparison), with maxima computed by exact decimal
comparison.  Hypotheses: every matching line's voltage/current field parses as
a decimal (otherwise `Decimal()` raises), and both running maxima end up
positive (otherwise NotFound — claim C2). -/
theorem parse_max_true_maxima (content mark : String)
    (hp : ∀ p ∈ matchingPairs (pySplitLines content) mark,
      (parseDecimal p.1).isSome ∧ (parseDecimal p.2).isSome)
    (hv : Dec.ble ((markedVolts content mark).foldl Dec.pymax decNegOne) decZero = false)
    (ha : Dec.ble ((markedAmps content mark).foldl Dec.pymax decNegOne) decZero = false) :
    ∃ V A, max_volts_amps content mark = .ok (V, A)
      ∧ V ∈ markedVolts content mark
      ∧ (∀ x ∈ markedVolts content mark, x.toRat ≤ V.toRat)
      ∧ A ∈ markedAmps content mark
      ∧ (∀ x ∈ markedAmps content mark, x.toRat ≤ A.toRat) := by
  have hloop := mvaLoop_eq mark (pySplitLines content) decNegOne decNegOne hp
  refine ⟨(markedVolts content mark).foldl Dec.pymax decNegOne,
          (markedAmps content mark).foldl Dec.pymax decNegOne, ?_, ?_,
          foldl_pymax_ge _ _, ?_, foldl_pymax_ge _ _⟩
  · unfold max_volts_amps
    rw [hloop]
    simp only [markedVolts, markedAmps] at hv ha
    simp [hv, ha, markedVolts, markedAmps]
  · rcases foldl_pymax_mem (markedVolts content mark) decNegOne with h | h
    · rw [h] at hv; exact absurd hv (by decide)
    · exact h
  · rcases foldl_pymax_mem (markedAmps content mark) decNegOne with h | h
    · rw [h] at ha; exact absurd ha (by decide)
    · exact h

/-- Witness for C1, mirroring the spec example `"9.10" > "9.09"`. -/
theorem parse_max_true_maxima_witness :
    ∃ V A,
      max_volts_amps
        "Time,t,Watts,w,Volts,9.09,Amps,1.2,x,Mark,m\nTime,t,Watts,w,Volts,9.10,Amps,1.0,x,Mark,m\n"
        "m" = .ok (V, A)
      ∧ V ∈ markedVolts
          "Time,t,Watts,w,Volts,9.09,Amps,1.2,x,Mark,m\nTime,t,Watts,w,Volts,9.10,Amps,1.0,x,Mark,m\n"
          "m"
      ∧ (∀ x ∈ markedVolts
          "Time,t,Watts,w,Volts,9.09,Amps,1.2,x,Mark,m\nTime,t,Watts,w,Volts,9.10,Amps,1.0,x,Mark,m\n"
          "m", x.toRat ≤ V.toRat)
      ∧ A ∈ markedAmps
          "Time,t,Watts,w,Volts,9.09,Amps,1.2,x,Mark,m\nTime,t,Watts,w,Volts,9.10,Amps,1.0,x,Mark,m\n"
          "m"
      ∧ (∀ x ∈ markedAmps
          "Time,t,Watts,w,Volts,9.09,Amps,1.2,x,Mark,m\nTime,t,Watts,w,Volts,9.10,Amps,1.0,x,Mark,m\n"
          "m", x.toRat ≤ A.toRat) :=
  parse_max_true_maxima _ "m" (by decide) (by decide) (by decide)

/-- Claim C2: `parse_max` fails with NotFound exactly when no line matches, or
the running maxima over the matching lines are non-positive on at least one
channel; a successful result is never the non-positive sentinel (both returned
maxima are strictly positive).  Hypothesis: every matching line's fields parse
(a malformed field raises `InvalidOperation`, a different error). -/
theorem parse_max_notFound_iff (content mark : String)
    (hp : ∀ p ∈ matchingPairs (pySplitLines content) mark,
      (parseDecimal p.1).isSome ∧ (parseDecimal p.2).isSome) :
    (max_volts_amps content mark = .error .notFound ↔
      matchingPairs (pySplitLines content) mark = []
      ∨ ((markedVolts content mark).foldl Dec.pymax decNegOne).toRat ≤ 0
      ∨ ((markedAmps content mark).foldl Dec.pymax decNegOne).toRat ≤ 0)
    ∧ (∀ V A, max_volts_amps content mark = .ok (V, A) → 0 < V.toRat ∧ 0 < A.toRat) := by
  have hloop := mvaLoop_eq mark (pySplitLines content) decNegOne decNegOne hp
  have hble : ∀ x : Dec, Dec.ble x decZero = true ↔ x.toRat ≤ 0 := by
    intro x; rw [Dec.ble_iff, decZero_toRat]
  have hmva : max_volts_amps content mark =
      if Dec.ble ((markedVolts content mark).foldl Dec.pymax decNegOne) decZero = true
         ∨ Dec.ble ((markedAmps content mark).foldl Dec.pymax decNegOne) decZero = true
      then .error .notFound
      else .ok ((markedVolts content mark).foldl Dec.pymax decNegOne,
                (markedAmps content mark).foldl Dec.pymax decNegOne) := by
    unfold max_volts_amps markedVolts markedAmps
    rw [hloop]
  rw [hmva]
  by_cases hcond :
      Dec.ble ((markedVolts content mark).foldl Dec.pymax decNegOne) decZero = true
      ∨ Dec.ble ((markedAmps content mark).foldl Dec.pymax decNegOne) decZero = true
  · rw [if_pos hcond]
    constructor
    · constructor
      · intro _
        rcases hcond with h | h
        · exact Or.inr (Or.inl ((hble _).mp h))
        · exact Or.inr (Or.inr ((hble _).mp h))
      · intro _; rfl
    · intro V A h
      exact Except.noConfusion h
  · push_neg at hcond
    obtain ⟨h1, h2⟩ := hcond
    rw [if_neg (by simpa using not_or_intro h1 h2)]
    constructor
    · constructor
      · intro h; exact Except.noConfusion h
      · intro h
        rcases h with h | h | h
        · have hnil : markedVolts content mark = [] := by
            unfold markedVolts; rw [h]; rfl
          rw [hnil] at h1
          exact absurd (by decide : Dec.ble (List.foldl Dec.pymax decNegOne []) decZero = true) h1
        · exact absurd ((hble _).mpr h) h1
        · exact absurd ((hble _).mpr h) h2
    · intro V A h
      have hV : V = (markedVolts content mark).foldl Dec.pymax decNegOne := by
        cases h; rfl
      have hA : A = (markedAmps content mark).foldl Dec.pymax decNegOne := by
        cases h; rfl
      subst hV; subst hA
      constructor
      · linarith [not_le.mp
          ((hble ((markedVolts content mark).foldl Dec.pymax decNegOne)).not.mp h1)]
      · linarith [not_le.mp
          ((hble ((markedAmps content mark).foldl Dec.pymax decNegOne)).not.mp h2)]

/-- Witness for C2: an all-junk log yields NotFound. -/
theorem parse_max_notFound_iff_witness :
    max_volts_amps "junk\n" "m" = .error .notFound :=
  ((parse_max_notFound_iff "junk\n" "m" (by decide)).1).mpr (Or.inl (by decide))

theorem readLogLoop_eq_filter (mark : String) (lines : List String) :
    readLogLoop mark lines = lines.filter (lineMatches mark) := by
  induction lines with
  | nil => rfl
  | cons l ls ih =>
    unfold readLogLoop
    rw [List.filter_cons]
    cases hre : RE_PTD_LOG_match (rstripCRLF l) with
    | none =>
      have : lineMatches mark l = false := by unfold lineMatches; rw [hre]
      rw [this, ih]
      simp
    | some t =>
      obtain ⟨v, a, mk⟩ := t
      have : lineMatches mark l = decide (mk = mark) := by unfold lineMatches; rw [hre]
      rw [this, ih]
      by_cases hmk : mk = mark
      · simp [hmk]
      · simp [hmk]

theorem strJoin_pySplitLinesAux (cs : List Char) :
    ∀ acc, strJoin (pySplitLinesAux cs acc) = String.mk (acc.reverse ++ cs) := by
  induction cs with
  | nil =>
    intro acc
    cases acc with
    | nil => rfl
    | cons a as => rfl
  | cons c cs ih =>
    intro acc
    unfold pySplitLinesAux
    by_cases hc : c = '\n'
    · subst hc
      rw [if_pos rfl]
      show String.mk (acc.reverse ++ ['\n']) ++ strJoin (pySplitLinesAux cs []) = _
      rw [ih []]
      show String.mk ((acc.reverse ++ ['\n']) ++ ([].reverse ++ cs)) = _
      simp
    · rw [if_neg hc, ih (c :: acc)]
      simp

/-- Lines reassemble verbatim: splitting into lines loses nothing. -/
theorem strJoin_pySplitLines (s : String) : strJoin (pySplitLines s) = s := by
  unfold pySplitLines
  rw [strJoin_pySplitLinesAux]
  cases s
  rfl

/-- Claim C8: For every log file and marker, `extract_records` (`read_log`)
returns exactly the concatenation of all matching lines, verbatim and in file
order (each line carrying its original terminator, since the lines of
`pySplitLines` reassemble to the exact file content), and the empty string
when no line matches. -/
theorem read_log_exact_concat (content mark : String) :
    read_log content mark = strJoin ((pySplitLines content).filter (lineMatches mark))
    ∧ strJoin (pySplitLines content) = content
    ∧ ((pySplitLines content).filter (lineMatches mark) = [] → read_log content mark = "") := by
  refine ⟨?_, strJoin_pySplitLines content, ?_⟩
  · unfold read_log
    rw [readLogLoop_eq_filter]
  · intro h
    unfold read_log
    rw [readLogLoop_eq_filter, h]
    rfl

/-- Witness for C8: a log with no matching line yields the empty string. -/
theorem read_log_exact_concat_witness :
    read_log "junk\nTime,t,Watts,w,Volts,1,Amps,2,x,Mark,other\n" "m" = "" :=
  (read_log_exact_concat "junk\nTime,t,Watts,w,Volts,1,Amps,2,x,Mark,other\n" "m").2.2
    (by decide)

theorem pySplitAux_ne_nil (sep : Char) (cs : List Char) :
    ∀ acc, pySplitAux sep cs acc ≠ [] := by
  induction cs with
  | nil => intro acc; simp [pySplitAux]
  | cons c cs ih =>
    intro acc
    unfold pySplitAux
    by_cases hc : c = sep
    · rw [if_pos hc]; simp
    · rw [if_neg hc]; exact ih _

theorem pySplit_ne_nil (s : String) (sep : Char) : pySplit s sep ≠ [] :=
  pySplitAux_ne_nil sep s.toList []

theorem handle_cmd_dispatch_init (st : Server) (inp : Input)
    (h : (pySplit inp.cmd ',').headD "" = "init") :
    Server.handle_cmd st inp = Server.handle_init st inp := by
  unfold Server.handle_cmd
  rw [if_neg (fun hl => pySplit_ne_nil _ _ (List.length_eq_zero.mp hl)),
      if_neg (by rw [h]; decide), if_neg (by rw [h]; decide), if_pos h]

theorem handle_cmd_dispatch_stop (st : Server) (inp : Input)
    (h : (pySplit inp.cmd ',').headD "" = "stop") :
    Server.handle_cmd st inp = Server.handle_stop st inp := by
  unfold Server.handle_cmd
  rw [if_neg (fun hl => pySplit_ne_nil _ _ (List.length_eq_zero.mp hl)),
      if_neg (by rw [h]; decide), if_neg (by rw [h]; decide), if_neg (by rw [h]; decide),
      if_neg (by rw [h]; intro hc; exact absurd hc.1 (by decide)),
      if_neg (by rw [h]; intro hc; exact absurd hc.1 (by decide)),
      if_pos h]

theorem handle_cmd_dispatch_get_last_log (st : Server) (inp : Input)
    (h : (pySplit inp.cmd ',').headD "" = "get-last-log") :
    Server.handle_cmd st inp =
      (match st.last_log with
       | none => .fault st
       | some t => .reply ("base64 " ++ base64Encode t) st) := by
  unfold Server.handle_cmd
  rw [if_neg (fun hl => pySplit_ne_nil _ _ (List.length_eq_zero.mp hl)),
      if_neg (by rw [h]; decide), if_neg (by rw [h]; decide), if_neg (by rw [h]; decide),
      if_neg (by rw [h]; intro hc; exact absurd hc.1 (by decide)),
      if_neg (by rw [h]; intro hc; exact absurd hc.1 (by decide)),
      if_neg (by rw [h]; decide), if_pos h]

theorem handle_cmd_dispatch_start_ranging (st : Server) (inp : Input) (mrk : String)
    (h : pySplit inp.cmd ',' = ["start-ranging", mrk]) :
    Server.handle_cmd st inp =
      .reply "OK" { st with mode := some "ranging", mark := some mrk } := by
  unfold Server.handle_cmd
  rw [h, if_neg (by simp), if_neg (by simp), if_neg (by simp), if_neg (by simp),
      if_pos ⟨rfl, rfl⟩]
  simp [List.getD]

theorem handle_cmd_dispatch_start_testing (st : Server) (inp : Input) (mrk : String)
    (h : pySplit inp.cmd ',' = ["start-testing", mrk]) :
    Server.handle_cmd st inp =
      (match dictLookup mrk st.ranging_table with
       | none => .fault st
       | some _item =>
         .reply "OK" { st with mode := some "testing", mark := some mrk }) := by
  unfold Server.handle_cmd
  rw [h, if_neg (by simp), if_neg (by simp), if_neg (by simp), if_neg (by simp),
      if_neg (by simp), if_pos ⟨rfl, rfl⟩]
  simp [List.getD]

theorem stepEffects_refl (st : Server) (inp : Input) (r : String) :
    StepEffects st st inp r :=
  ⟨Or.inl rfl, fun hm => Or.inl ⟨hm, rfl⟩, Or.inl rfl⟩

theorem step_effects (st st' : Server) (inp : Input) (r : String)
    (h : stepSafe st inp = some (r, st')) : StepEffects st st' inp r := by
  unfold stepSafe Server.handle_cmd at h
  by_cases h0 : (pySplit inp.cmd ',').length = 0
  · rw [if_pos h0] at h
    simp only [Option.some.injEq, Prod.mk.injEq] at h
    obtain ⟨rfl, rfl⟩ := h
    exact stepEffects_refl ..
  rw [if_neg h0] at h
  by_cases h1 : (pySplit inp.cmd ',').headD "" = "hello"
  · rw [if_pos h1] at h
    simp only [Option.some.injEq, Prod.mk.injEq] at h
    obtain ⟨rfl, rfl⟩ := h
    exact stepEffects_refl ..
  rw [if_neg h1] at h
  by_cases h2 : (pySplit inp.cmd ',').headD "" = "time"
  · rw [if_pos h2] at h
    simp only [Option.some.injEq, Prod.mk.injEq] at h
    obtain ⟨rfl, rfl⟩ := h
    exact stepEffects_refl ..
  rw [if_neg h2] at h
  by_cases h3 : (pySplit inp.cmd ',').headD "" = "init"
  · rw [if_pos h3] at h
    unfold Server.handle_init at h
    rcases hps : Ptd.start inp.daemon st.ptd with ⟨o, p, sent⟩
    rw [hps] at h
    cases o with
    | exited => simp at h
    | fault =>
      simp only [Option.some.injEq, Prod.mk.injEq] at h
      obtain ⟨rfl, rfl⟩ := h
      exact ⟨Or.inl rfl, fun hm => Or.inl ⟨hm, rfl⟩, Or.inl rfl⟩
    | ret b =>
      simp only [Option.some.injEq, Prod.mk.injEq] at h
      obtain ⟨rfl, rfl⟩ := h
      exact ⟨Or.inl rfl, fun hm => Or.inl ⟨hm, rfl⟩, Or.inl rfl⟩
  rw [if_neg h3] at h
  by_cases h4 : (pySplit inp.cmd ',').headD "" = "start-ranging"
      ∧ (pySplit inp.cmd ',').length = 2
  · rw [if_pos h4] at h
    obtain ⟨hhd, hlen⟩ := h4
    rcases hp : pySplit inp.cmd ',' with _ | ⟨a, _ | ⟨b, _ | ⟨c, rest⟩⟩⟩ <;>
      rw [hp] at hhd hlen h
    · exact absurd rfl (hp ▸ pySplit_ne_nil inp.cmd ',')
    · simp at hlen
    · simp only [List.headD_cons] at hhd
      subst hhd
      simp only [Option.some.injEq, Prod.mk.injEq] at h
      obtain ⟨rfl, rfl⟩ := h
      refine ⟨Or.inl rfl, fun _ => Or.inr ⟨b, hp, rfl⟩, Or.inl rfl⟩
    · simp at hlen
  rw [if_neg h4] at h
  by_cases h5 : (pySplit inp.cmd ',').headD "" = "start-testing"
      ∧ (pySplit inp.cmd ',').length = 2
  · rw [if_pos h5] at h
    cases hdl : dictLookup ((pySplit inp.cmd ',').getD 1 "") st.ranging_table with
    | none =>
      rw [hdl] at h
      simp only [Option.some.injEq, Prod.mk.injEq] at h
      obtain ⟨rfl, rfl⟩ := h
      exact stepEffects_refl ..
    | some val =>
      rw [hdl] at h
      simp only [Option.some.injEq, Prod.mk.injEq] at h
      obtain ⟨rfl, rfl⟩ := h
      refine ⟨Or.inl rfl, fun hm => ?_, Or.inl rfl⟩
      simp at hm
  rw [if_neg h5] at h
  by_cases h6 : (pySplit inp.cmd ',').headD "" = "stop"
  · rw [if_pos h6] at h
    have hstop : isStopCmd inp = true := by
      unfold isStopCmd
      rw [h6]
      decide
    unfold Server.handle_stop at h
    cases hmk : st.mark with
    | none =>
      rw [hmk] at h
      simp only [Option.some.injEq, Prod.mk.injEq] at h
      obtain ⟨rfl, rfl⟩ := h
      exact stepEffects_refl ..
    | some mrk =>
      rw [hmk] at h
      dsimp only [] at h
      cases hf : inp.file with
      | none =>
        rw [hf] at h
        simp only [Option.some.injEq, Prod.mk.injEq] at h
        obtain ⟨rfl, rfl⟩ := h
        exact stepEffects_refl ..
      | some content =>
        rw [hf] at h
        dsimp only [] at h
        by_cases hmode : st.mode = some "ranging"
        · rw [if_pos hmode] at h
          cases hmva : max_volts_amps content ("ranging-" ++ mrk) with
          | error e =>
            rw [hmva] at h
            dsimp only [] at h
            simp only [Option.some.injEq, Prod.mk.injEq] at h
            obtain ⟨rfl, rfl⟩ := h
            exact stepEffects_refl ..
          | ok item =>
            rw [hmva] at h
            dsimp only [] at h
            simp only [Option.some.injEq, Prod.mk.injEq] at h
            obtain ⟨rfl, rfl⟩ := h
            refine ⟨Or.inr ⟨hstop, hmode, mrk, item, hmk, rfl⟩, fun hm => ?_,
              Or.inr ⟨hstop, rfl⟩⟩
            simp at hm
        · rw [if_neg hmode] at h
          simp only [Option.some.injEq, Prod.mk.injEq] at h
          obtain ⟨rfl, rfl⟩ := h
          refine ⟨Or.inl rfl, fun hm => ?_, Or.inr ⟨hstop, rfl⟩⟩
          simp at hm
  rw [if_neg h6] at h
  by_cases h7 : (pySplit inp.cmd ',').headD "" = "get-last-log"
  · rw [if_pos h7] at h
    cases hll : st.last_log with
    | none =>
      rw [hll] at h
      simp only [Option.some.injEq, Prod.mk.injEq] at h
      obtain ⟨rfl, rfl⟩ := h
      exact stepEffects_refl ..
    | some t =>
      rw [hll] at h
      simp only [Option.some.injEq, Prod.mk.injEq] at h
      obtain ⟨rfl, rfl⟩ := h
      exact stepEffects_refl ..
  rw [if_neg h7] at h
  by_cases h8 : (pySplit inp.cmd ',').headD "" = "get-log"
  · rw [if_pos h8] at h
    cases hf : inp.file with
    | none =>
      rw [hf] at h
      simp only [Option.some.injEq, Prod.mk.injEq] at h
      obtain ⟨rfl, rfl⟩ := h
      exact stepEffects_refl ..
    | some c =>
      rw [hf] at h
      simp only [Option.some.injEq, Prod.mk.injEq] at h
      obtain ⟨rfl, rfl⟩ := h
      exact stepEffects_refl ..
  rw [if_neg h8] at h
  by_cases h9 : (pySplit inp.cmd ',').headD "" = "push-log"
      ∧ (pySplit inp.cmd ',').length = 2
  · rw [if_pos h9] at h
    by_cases hlab : ¬ inp.labelOk ((pySplit inp.cmd ',').getD 1 "")
    · rw [if_pos hlab] at h
      simp only [Option.some.injEq, Prod.mk.injEq] at h
      obtain ⟨rfl, rfl⟩ := h
      exact stepEffects_refl ..
    · rw [if_neg hlab] at h
      by_cases hpf : inp.pushFault
      · rw [if_pos hpf] at h
        simp only [Option.some.injEq, Prod.mk.injEq] at h
        obtain ⟨rfl, rfl⟩ := h
        exact stepEffects_refl ..
      · rw [if_neg hpf] at h
        simp only [Option.some.injEq, Prod.mk.injEq] at h
        obtain ⟨rfl, rfl⟩ := h
        exact stepEffects_refl ..
  rw [if_neg h9] at h
  simp only [Option.some.injEq, Prod.mk.injEq] at h
  obtain ⟨rfl, rfl⟩ := h
  exact stepEffects_refl ..

theorem runSession_cons_inv (st : Server) (i : Input) (is : List Input)
    (rs0 : List String) (stf : Server)
    (h : runSession st (i :: is) = some (rs0, stf)) :
    ∃ r st2 rs, stepSafe st i = some (r, st2)
      ∧ runSession st2 is = some (rs, stf) ∧ rs0 = r :: rs := by
  unfold runSession at h
  cases hs : stepSafe st i with
  | none => rw [hs] at h; simp at h
  | some p =>
    obtain ⟨r, st2⟩ := p
    rw [hs] at h
    dsimp only [] at h
    cases hr : runSession st2 is with
    | none => rw [hr] at h; simp at h
    | some q =>
      obtain ⟨rs, stf2⟩ := q
      rw [hr] at h
      simp only [Option.some.injEq, Prod.mk.injEq] at h
      obtain ⟨h1, h2⟩ := h
      exact ⟨r, st2, rs, rfl, by rw [← h2]; exact hr, h1.symm⟩

theorem hasStop_cons (i : Input) (is : List Input) (h : hasStop is) :
    hasStop (i :: is) := by
  obtain ⟨b, hb, hsb⟩ := h
  exact ⟨b, List.mem_cons_of_mem _ hb, hsb⟩

theorem producedBy_cons (i : Input) (is : List Input) (mk2 : String)
    (h : producedBy is mk2) : producedBy (i :: is) mk2 := by
  obtain ⟨l1, a, l2, heq, ha, hstp⟩ := h
  exact ⟨i :: l1, a, l2, by rw [heq]; rfl, ha, hstp⟩

theorem runSession_table (cs : List Input) :
    ∀ st rs stf, runSession st cs = some (rs, stf) →
    ∀ mk2, dictLookup mk2 stf.ranging_table ≠ none →
      dictLookup mk2 st.ranging_table ≠ none
      ∨ (st.mode = some "ranging" ∧ st.mark = some mk2 ∧ hasStop cs)
      ∨ producedBy cs mk2 := by
  induction cs with
  | nil =>
    intro st rs stf h mk2 hlk
    unfold runSession at h
    simp only [Option.some.injEq, Prod.mk.injEq] at h
    obtain ⟨-, rfl⟩ := h
    exact Or.inl hlk
  | cons i is ih =>
    intro st rs stf h mk2 hlk
    obtain ⟨r, st2, rs2, hs, hr, rfl⟩ := runSession_cons_inv st i is rs stf h
    rcases ih st2 rs2 stf hr mk2 hlk with hc | hc | hc
    · obtain ⟨htab, -, -⟩ := step_effects st st2 i r hs
      rcases htab with he | ⟨hstop, hmode, mrk, item, hmark, he⟩
      · rw [he] at hc
        exact Or.inl hc
      · by_cases hmm : mrk = mk2
        · subst hmm
          exact Or.inr (Or.inl ⟨hmode, hmark, i, List.mem_cons_self _ _, hstop⟩)
        · rw [he] at hc
          unfold dictLookup at hc
          rw [if_neg hmm] at hc
          exact Or.inl hc
    · obtain ⟨hm2, hmk2, hstp⟩ := hc
      obtain ⟨-, hmode, -⟩ := step_effects st st2 i r hs
      rcases hmode hm2 with ⟨hm1, hmkeq⟩ | ⟨mrk, hcmd, hmk⟩
      · rw [hmkeq] at hmk2
        exact Or.inr (Or.inl ⟨hm1, hmk2, hasStop_cons i is hstp⟩)
      · rw [hmk] at hmk2
        have hmm : mrk = mk2 := Option.some.inj hmk2
        subst hmm
        exact Or.inr (Or.inr ⟨[], i, is, rfl, hcmd, hstp⟩)
    · exact Or.inr (Or.inr (producedBy_cons i is mk2 hc))

theorem runSession_lastlog (cs : List Input) :
    ∀ st rs stf, runSession st cs = some (rs, stf) →
      (∀ p ∈ cs.zip rs, isStopCmd p.1 = true → p.2 ≠ "OK") →
      stf.last_log = st.last_log := by
  induction cs with
  | nil =>
    intro st rs stf h _
    unfold runSession at h
    simp only [Option.some.injEq, Prod.mk.injEq] at h
    obtain ⟨-, rfl⟩ := h
    rfl
  | cons i is ih =>
    intro st rs stf h hprem
    obtain ⟨r, st2, rs2, hs, hr, rfl⟩ := runSession_cons_inv st i is rs stf h
    have hzip : (i :: is).zip (r :: rs2) = (i, r) :: is.zip rs2 := rfl
    have h1 : st2.last_log = st.last_log := by
      obtain ⟨-, -, hll⟩ := step_effects st st2 i r hs
      rcases hll with he | ⟨hstop, hOK⟩
      · exact he
      · exact absurd hOK (hprem (i, r) (by rw [hzip]; exact List.mem_cons_self _ _) hstop)
    have h2 : stf.last_log = st2.last_log :=
      ih st2 rs2 stf hr (fun p hp => hprem p (by rw [hzip]; exact List.mem_cons_of_mem _ hp))
    rw [h2, h1]

/-- Claim C5: From any connection-start state (empty ranging table, idle mode),
every marker present in the ranging table after a run of commands was
produced by a prior `start-ranging,X` followed by a later `stop` within the
same connection; and when the table has no entry for X, `start-testing,X`
surfaces as the generic `"Error: exception"` reply (the `KeyError` of the
dict lookup is caught by the per-command wrapper), leaving the state
unchanged, and the session continues. -/
theorem testing_requires_ranged (st0 : Server) (cs : List Input)
    (rs : List String) (stf : Server)
    (htab : st0.ranging_table = []) (hmode : st0.mode = none)
    (hrun : runSession st0 cs = some (rs, stf)) :
    (∀ mk2, dictLookup mk2 stf.ranging_table ≠ none → producedBy cs mk2)
    ∧ (∀ (st : Server) (inp : Input) (mk2 : String),
        pySplit inp.cmd ',' = ["start-testing", mk2] →
        dictLookup mk2 st.ranging_table = none →
        stepSafe st inp = some ("Error: exception", st)) := by
  constructor
  · intro mk2 hlk
    rcases runSession_table cs st0 rs stf hrun mk2 hlk with hc | hc | hc
    · rw [htab] at hc
      exact absurd rfl hc
    · rw [hmode] at hc
      exact absurd hc.1 (by simp)
    · exact hc
  · intro st inp mk2 hcmd hlk
    unfold stepSafe
    rw [handle_cmd_dispatch_start_testing st inp mk2 hcmd, hlk]

/-- Witness for C5: a concrete `start-ranging,r` → `stop` run populates the
table for `r` (hence `producedBy`), and `start-testing,zzz` from a fresh
session replies `"Error: exception"` without state change. -/
theorem testing_requires_ranged_witness :
    producedBy [inpStartRanging, inpStop] "r"
    ∧ stepSafe Server.initial inpStartTestingMissing
        = some ("Error: exception", Server.initial) := by
  have hrun : runSession Server.initial [inpStartRanging, inpStop]
      = some (["OK", "OK"],
          ⟨Ptd.initial, none, none, [("r", (⟨2, 0⟩, ⟨3, 0⟩))], some demoLog⟩) := by
    decide
  obtain ⟨hc1, hc2⟩ := testing_requires_ranged Server.initial [inpStartRanging, inpStop]
    _ _ rfl rfl hrun
  exact ⟨hc1 "r" (by decide),
         hc2 Server.initial inpStartTestingMissing "zzz" (by decide) rfl⟩

/-- Claim C9: Starting from the fresh server object (whose constructor never
initialises the last-log buffer), as long as no `stop` command has replied
`OK`, the buffer is still absent, and a `get-last-log` command faults (the
`AttributeError` is caught into the generic `"Error: exception"` reply)
instead of returning a base64-tagged payload. -/
theorem get_last_log_before_stop_faults (cs : List Input) (rs : List String)
    (stf : Server)
    (hrun : runSession Server.initial cs = some (rs, stf))
    (hnostop : ∀ p ∈ cs.zip rs, isStopCmd p.1 = true → p.2 ≠ "OK") :
    stf.last_log = none
    ∧ ∀ inp : Input, (pySplit inp.cmd ',').headD "" = "get-last-log" →
        stepSafe stf inp = some ("Error: exception", stf) := by
  have hll : stf.last_log = none := by
    rw [runSession_lastlog cs Server.initial rs stf hrun hnostop]
    rfl
  refine ⟨hll, fun inp hcmd => ?_⟩
  unfold stepSafe
  rw [handle_cmd_dispatch_get_last_log stf inp hcmd, hll]

/-- Witness for C9: after only a `hello` command, `get-last-log` replies
`"Error: exception"`. -/
theorem get_last_log_before_stop_faults_witness :
    stepSafe Server.initial inpGetLastLog
      = some ("Error: exception", Server.initial) := by
  have hrun : runSession Server.initial [inpHello]
      = some (["Hello from server!"], Server.initial) := by decide
  exact (get_last_log_before_stop_faults [inpHello] _ _ hrun (by decide)).2
    inpGetLastLog (by decide)

/-- Claim C10: The connection prologue resets only mode, marker and ranging
table and deletes the daemon log file; the last-log buffer and the daemon
supervisor state are left unchanged, so a `get-last-log` issued on the new
connection before its first `stop` returns the text captured during a
previous connection. -/
theorem connection_reset_keeps_last_log (st : Server) (file : Option String) :
    (connectionStart st file).1.mode = none
    ∧ (connectionStart st file).1.mark = none
    ∧ (connectionStart st file).1.ranging_table = []
    ∧ (connectionStart st file).1.last_log = st.last_log
    ∧ (connectionStart st file).1.ptd = st.ptd
    ∧ (connectionStart st file).2 = none
    ∧ (∀ t (inp : Input), st.last_log = some t →
        (pySplit inp.cmd ',').headD "" = "get-last-log" →
        stepSafe (connectionStart st file).1 inp
          = some ("base64 " ++ base64Encode t, (connectionStart st file).1)) := by
  refine ⟨rfl, rfl, rfl, rfl, rfl, rfl, fun t inp hll hcmd => ?_⟩
  unfold stepSafe
  rw [handle_cmd_dispatch_get_last_log _ inp hcmd]
  have hll2 : (connectionStart st file).1.last_log = some t := hll
  rw [hll2]

/-- Witness for C10: a session holding last log `"prev"` still returns it
after the connection reset. -/
theorem connection_reset_keeps_last_log_witness :
    stepSafe (connectionStart ⟨Ptd.initial, some "testing", some "x", [], some "prev"⟩
        (some demoLog)).1 inpGetLastLog
      = some ("base64 " ++ base64Encode "prev",
          (connectionStart ⟨Ptd.initial, some "testing", some "x", [], some "prev"⟩
            (some demoLog)).1) :=
  (connection_reset_keeps_last_log
    ⟨Ptd.initial, some "testing", some "x", [], some "prev"⟩ (some demoLog)).2.2.2.2.2.2
    "prev" inpGetLastLog rfl (by decide)

/-- Claim C3 counterexample: After a completed `start()` (no intervening
`stop()`), a second `start()` does *not* succeed: `Ptd.start` hits the
`if self._process is not None: return False` guard and returns `False`, so a
repeated `init` command replies `"Error"`, not `OK`. -/
theorem start_twice_counterexample :
    Ptd.start demoDaemonGood Ptd.initial
      = (.ret true, ptdStarted, ["Hello", "Identify", "RR"])
    ∧ Ptd.start demoDaemonGood ptdStarted = (.ret false, ptdStarted, [])
    ∧ stepSafe serverStarted inpInit = some ("Error", serverStarted) := by
  refine ⟨by decide, by decide, by decide⟩

/-- Claim C3, amended: A second `start()` on a supervisor whose process
handle is still held launches no second daemon process, sends nothing, and is
side-effect-free — but it returns failure (`False`), so a repeated `init`
command replies `"Error"` rather than `OK`. -/
theorem start_twice_amended (d : Daemon) (p : Ptd) (hp : p.process = true) :
    Ptd.start d p = (.ret false, p, [])
    ∧ (∀ (st : Server) (inp : Input), st.ptd = p → inp.daemon = d →
        (pySplit inp.cmd ',').headD "" = "init" →
        stepSafe st inp = some ("Error", st)) := by
  have h1 : Ptd.start d p = (.ret false, p, []) := by
    unfold Ptd.start
    rw [if_pos hp]
  refine ⟨h1, fun st inp hst hd hcmd => ?_⟩
  unfold stepSafe
  rw [handle_cmd_dispatch_init st inp hcmd]
  unfold Server.handle_init
  rw [hd, hst, h1]
  dsimp only []
  rw [← hst]
  rfl

/-- Witness for the amended C3. -/
theorem start_twice_amended_witness :
    Ptd.start demoDaemonGood ptdStarted = (.ret false, ptdStarted, [])
    ∧ stepSafe serverStarted inpInit = some ("Error", serverStarted) :=
  ⟨(start_twice_amended demoDaemonGood ptdStarted rfl).1,
   (start_twice_amended demoDaemonGood ptdStarted rfl).2 serverStarted inpInit
     rfl rfl (by decide)⟩

/-- Claim C4: After every successful `start()`, the captured InitialRange values
are exactly those computed from the daemon's `RR` reply, and `stop()` then
sends `"Stop"`, the Volts restore `"SR,V,<initVolts>"`, and the Amps restore
`"SR,A,<initAmps>"`, in that fixed order, and terminates the process; while
`stop()` on a never-started supervisor sends nothing, terminates nothing, and
leaves the state unchanged. -/
theorem stop_restore_order (d : Daemon) (p p2 : Ptd) (sent : List String)
    (h : Ptd.start d p = (.ret true, p2, sent)) :
    (∃ resp amps volts,
        d.reply "RR" = some resp
        ∧ getRangeFromRangesList (pySplit resp ',') 1 = some amps
        ∧ getRangeFromRangesList (pySplit resp ',') 3 = some volts
        ∧ p2.init_Amps = some amps
        ∧ p2.init_Volts = some volts
        ∧ (Ptd.stop p2).2.1 = ["Stop", "SR,V," ++ volts, "SR,A," ++ amps]
        ∧ (Ptd.stop p2).2.2 = true)
    ∧ Ptd.stop Ptd.initial = (Ptd.initial, [], false) := by
  refine ⟨?_, by decide⟩
  unfold Ptd.start at h
  by_cases hp : p.process = true
  · rw [if_pos hp] at h
    simp at h
  rw [if_neg hp] at h
  by_cases hc : d.connects = true
  · rw [if_neg (by simp [hc])] at h
    by_cases hh : d.reply "Hello" ≠ some "Hello, PTDaemon here!"
    · rw [if_pos hh] at h
      simp at h
    rw [if_neg hh] at h
    cases hrr : d.reply "RR" with
    | none =>
      rw [hrr] at h
      simp at h
    | some resp =>
      rw [hrr] at h
      dsimp only [] at h
      by_cases hre : resp = ""
      · rw [if_pos hre] at h
        simp at h
      rw [if_neg hre] at h
      cases hra : getRangeFromRangesList (pySplit resp ',') 1 with
      | none =>
        rw [hra] at h
        simp at h
      | some amps =>
        rw [hra] at h
        dsimp only [] at h
        cases hrv : getRangeFromRangesList (pySplit resp ',') 3 with
        | none =>
          rw [hrv] at h
          simp at h
        | some volts =>
          rw [hrv] at h
          simp only [Prod.mk.injEq] at h
          obtain ⟨-, hst, -⟩ := h
          subst hst
          exact ⟨resp, amps, volts, rfl, hra, hrv, rfl, rfl, rfl, rfl⟩
  · rw [if_pos (by simp [hc])] at h
    simp at h

/-- Witness for C4. -/
theorem stop_restore_order_witness :
    (∃ resp amps volts,
        demoDaemonGood.reply "RR" = some resp
        ∧ getRangeFromRangesList (pySplit resp ',') 1 = some amps
        ∧ getRangeFromRangesList (pySplit resp ',') 3 = some volts
        ∧ ptdStarted.init_Amps = some amps
        ∧ ptdStarted.init_Volts = some volts
        ∧ (Ptd.stop ptdStarted).2.1 = ["Stop", "SR,V," ++ volts, "SR,A," ++ amps]
        ∧ (Ptd.stop ptdStarted).2.2 = true)
    ∧ Ptd.stop Ptd.initial = (Ptd.initial, [], false) :=
  stop_restore_order demoDaemonGood Ptd.initial ptdStarted
    ["Hello", "Identify", "RR"] (by decide)

/-- Claim C6 counterexample: The non-empty comma-separated RR reply `"0"` does
*not* complete InitialRange capture: the flag access at offset 1 raises an
uncaught `IndexError` (the `try` catches only `ValueError`), which escapes
`start()` and surfaces at the session layer as `"Error: exception"` — it does
not fall back to `"Auto"`. -/
theorem range_capture_short_reply_faults :
    "0" ≠ "" ∧ getInitialRange "0" = none
    ∧ (Ptd.start demoDaemonShortRR Ptd.initial).1 = .fault
    ∧ stepSafe Server.initial inpInitShort
        = some ("Error: exception", ⟨⟨true, true, true, none, none⟩, none, none, [], none⟩) := by
  refine ⟨by decide, by decide, by decide, by decide⟩

theorem getRangeFromRangesList_char (flag value : String) (rl : List String)
    (pn : ℕ) (hf : rl.get? pn = some flag) (hv : rl.get? (pn + 1) = some value) :
    getRangeFromRangesList rl pn = some (claimedSetting flag value) := by
  unfold getRangeFromRangesList claimedSetting
  rw [hf, hv]
  dsimp only []
  by_cases hb : flag = "0"
  · rw [if_pos hb, if_pos hb]
    cases hfc : pyFloat value with
    | none => rfl
    | some fv =>
      dsimp only []
      by_cases hq : pyFloatGtZero fv = true
      · rw [if_pos hq, if_pos hq]
      · rw [if_neg hq, if_neg hq]
  · rw [if_neg hb, if_neg hb]

/-- Claim C6, amended: For every ASCII RR reply whose comma-split has at
least the five fields of a well-formed `Ranges,…` response, InitialRange
capture completes without an uncaught fault, and each channel (amps flag at
offset 1, volts flag at offset 3, paired value at the next offset) captures
the literal value exactly when the flag is `"0"` and the value parses as a
float greater than zero, falling back to `"Auto"` in every other case
including a parse failure.  The ASCII hypothesis only marks the scope of the
`float()` model (CPython transliterates non-ASCII Unicode digits and spaces,
which `pyFloat` does not model); the conclusion does not depend on it. -/
theorem range_capture_amended (resp : String)
    (_hAscii : isAsciiStr resp = true)
    (h5 : 5 ≤ (pySplit resp ',').length) :
    getInitialRange resp
      = some (claimedSetting ((pySplit resp ',').getD 1 "") ((pySplit resp ',').getD 2 ""),
              claimedSetting ((pySplit resp ',').getD 3 "") ((pySplit resp ',').getD 4 "")) := by
  rcases hl : pySplit resp ',' with _ | ⟨a, _ | ⟨b, _ | ⟨c, _ | ⟨d, _ | ⟨e, rest⟩⟩⟩⟩⟩ <;>
    rw [hl] at h5 <;> try simp at h5
  unfold getInitialRange
  rw [hl,
    getRangeFromRangesList_char b c (a :: b :: c :: d :: e :: rest) 1 rfl rfl,
    getRangeFromRangesList_char d e (a :: b :: c :: d :: e :: rest) 3 rfl rfl]
  rfl

/-- Witness for the amended C6, matching the spec scenario: reply
`0,0,5.5,0,120.0` captures Amps `"5.5"` and Volts `"120.0"`. -/
theorem range_capture_amended_witness :
    getInitialRange "0,0,5.5,0,120.0" = some ("5.5", "120.0")
    ∧ claimedSetting "0" "5.5" = "5.5" ∧ claimedSetting "0" "120.0" = "120.0" := by
  refine ⟨?_, by decide, by decide⟩
  have h := range_capture_amended "0,0,5.5,0,120.0" (by decide) (by decide)
  rw [h]
  decide

/-- Claim C7: An empty or missing `RR` reply during `start()` terminates the
entire server process — the session step yields no reply at all — whereas the
other daemon faults (unreachable daemon, bad handshake) merely make `start()`
return failure, reported to the client as an `"Error"` reply with the session
continuing. -/
theorem empty_rr_reply_exits_process (d : Daemon) (p : Ptd)
    (hp : p.process = false) :
    (d.connects = true → d.reply "Hello" = some "Hello, PTDaemon here!" →
      (d.reply "RR" = none ∨ d.reply "RR" = some "") →
      (Ptd.start d p).1 = .exited
      ∧ ∀ (st : Server) (inp : Input), st.ptd = p → inp.daemon = d →
          (pySplit inp.cmd ',').headD "" = "init" → stepSafe st inp = none)
    ∧ (d.connects = false →
        (Ptd.start d p).1 = .ret false
        ∧ ∀ (st : Server) (inp : Input), st.ptd = p → inp.daemon = d →
            (pySplit inp.cmd ',').headD "" = "init" →
            ∃ st2 : Server, stepSafe st inp = some ("Error", st2))
    ∧ (d.connects = true → d.reply "Hello" ≠ some "Hello, PTDaemon here!" →
        (Ptd.start d p).1 = .ret false
        ∧ ∀ (st : Server) (inp : Input), st.ptd = p → inp.daemon = d →
            (pySplit inp.cmd ',').headD "" = "init" →
            ∃ st2 : Server, stepSafe st inp = some ("Error", st2)) := by
  have hsession : ∀ (o : StartOutcome) (st : Server) (inp : Input),
      st.ptd = p → inp.daemon = d →
      (pySplit inp.cmd ',').headD "" = "init" →
      (Ptd.start d p).1 = o →
      (o = .exited → stepSafe st inp = none)
      ∧ (o = .ret false → ∃ st2 : Server, stepSafe st inp = some ("Error", st2)) := by
    intro o st inp hst hd hcmd ho
    have hdisp : stepSafe st inp =
        (match Ptd.start d p with
         | (.exited, _, _) => none
         | (.fault, p2, _) => some ("Error: exception", { st with ptd := p2 })
         | (.ret b, p2, _) => some (if b then "OK" else "Error", { st with ptd := p2 })) := by
      unfold stepSafe
      rw [handle_cmd_dispatch_init st inp hcmd]
      unfold Server.handle_init
      rw [hd, hst]
      rcases Ptd.start d p with ⟨o2, p2, s2⟩
      cases o2 <;> rfl
    rcases hps : Ptd.start d p with ⟨o2, p2, s2⟩
    have ho2 : o2 = o := by rw [hps] at ho; exact ho
    subst ho2
    rw [hps] at hdisp
    constructor
    · intro hoe
      subst hoe
      rw [hdisp]
    · intro hof
      subst hof
      rw [hdisp]
      exact ⟨{ st with ptd := p2 }, rfl⟩
  refine ⟨fun hc hh hrr => ?_, fun hc => ?_, fun hc hh => ?_⟩
  · have ho : (Ptd.start d p).1 = .exited := by
      unfold Ptd.start
      rw [if_neg (by simp [hp]), if_neg (by simp [hc]), if_neg (by simp [hh])]
      rcases hrr with hrr | hrr
      · rw [hrr]
      · rw [hrr]
        rfl
    exact ⟨ho, fun st inp hst hd hcmd =>
      ((hsession .exited st inp hst hd hcmd ho).1 rfl)⟩
  · have ho : (Ptd.start d p).1 = .ret false := by
      unfold Ptd.start
      rw [if_neg (by simp [hp]), if_pos (by simp [hc])]
    exact ⟨ho, fun st inp hst hd hcmd =>
      ((hsession (.ret false) st inp hst hd hcmd ho).2 rfl)⟩
  · have ho : (Ptd.start d p).1 = .ret false := by
      unfold Ptd.start
      rw [if_neg (by simp [hp]), if_neg (by simp [hc]), if_pos hh]
    exact ⟨ho, fun st inp hst hd hcmd =>
      ((hsession (.ret false) st inp hst hd hcmd ho).2 rfl)⟩

/-- Witness for C7: the empty-RR daemon exits the process (no reply at all),
while the unreachable and bad-handshake daemons get an `"Error"` reply. -/
theorem empty_rr_reply_exits_process_witness :
    ((Ptd.start demoDaemonEmptyRR Ptd.initial).1 = .exited
      ∧ stepSafe Server.initial inpInitEmptyRR = none)
    ∧ ((Ptd.start demoDaemonNoConnect Ptd.initial).1 = .ret false
      ∧ ∃ st2 : Server, stepSafe Server.initial inpInitNoConnect = some ("Error", st2))
    ∧ ((Ptd.start demoDaemonBadHello Ptd.initial).1 = .ret false
      ∧ ∃ st2 : Server, stepSafe Server.initial inpInitBadHello = some ("Error", st2)) := by
  have h1 := (empty_rr_reply_exits_process demoDaemonEmptyRR Ptd.initial rfl).1
    rfl rfl (Or.inr rfl)
  have h2 := (empty_rr_reply_exits_process demoDaemonNoConnect Ptd.initial rfl).2.1
    rfl
  have h3 := (empty_rr_reply_exits_process demoDaemonBadHello Ptd.initial rfl).2.2
    rfl (by decide)
  exact ⟨⟨h1.1, h1.2 Server.initial inpInitEmptyRR rfl rfl (by decide)⟩,
         ⟨h2.1, h2.2 Server.initial inpInitNoConnect rfl rfl (by decide)⟩,
         ⟨h3.1, h3.2 Server.initial inpInitBadHello rfl rfl (by decide)⟩⟩
